import Mathlib

/-!
Shallow embedding of src/queue_downloads.py (dls-datagateway-scripts).

The script logs in to a DataGateway instance, splits a newline-delimited list
of file paths into parts of exactly 10,000, submits one Download request per
part, and optionally polls the submitted downloads until completion.

HTTP is modelled by response oracles: a function from call index to the
response the server would return for that call.  Each embedded function
additionally reports how many HTTP calls of each kind it issued, so that
abort-on-error claims ("no further HTTP calls") are statable.  Raising
RuntimeError is modelled by Except.error carrying the raw response body.
-/

namespace QueueDownloads

/-- Model of Python str.strip() applied to a line read by readline
(queue_downloads.py line 63): leading and trailing whitespace characters
(space, tab, carriage return, line feed) are removed.  Written structurally
over the character list so that concrete instances evaluate. -/
def pyStrip (s : String) : String :=
  ⟨((s.data.dropWhile Char.isWhitespace).reverse.dropWhile Char.isWhitespace).reverse⟩

/-- Response to the login POST (line 27): status code, raw body text, and the
sessionId field of the parsed JSON body. -/
structure LoginResponse where
  status_code : Nat
  text : String
  sessionId : String
deriving DecidableEq

/-- Response to one chunk-submission POST (line 128): status code, raw body
text, and the downloadId / notFound fields of the parsed JSON body. -/
structure QueueResponse where
  status_code : Nat
  text : String
  downloadId : Int
  notFound : List String
deriving DecidableEq

/-- Response to one status-query GET (lines 162 and 175): status code, raw
body text, and the parsed JSON body, a list of status strings. -/
structure StatusResponse where
  status_code : Nat
  text : String
  content : List String
deriving DecidableEq

/-- Embedding of login (lines 25-31): one POST; any status other than 200
raises RuntimeError(response.text); otherwise the sessionId is returned. -/
def login (r : LoginResponse) : Except String String :=
  if r.status_code ≠ 200 then Except.error r.text else Except.ok r.sessionId

/-- Embedding of queue_files (lines 121-139): one POST; any status other than
200 raises RuntimeError(response.text); otherwise the downloadId of the JSON
body is returned (the notFound list is only printed). -/
def queue_files (r : QueueResponse) : Except String Int :=
  if r.status_code ≠ 200 then Except.error r.text else Except.ok r.downloadId

/-- Part name built at lines 71 and 84: the f-string
base_file_name + "_part_" + i. -/
def mkPartName (base : String) (i : Nat) : String :=
  base ++ "_part_" ++ toString i

/-- Model of the Python expression from line 59,
file_name or datetime.now().isoformat()[:19]: the or falls through when
file_name is None or the empty string (both falsy). -/
def pyOr (fn : Option String) (d : String) : String :=
  match fn with
  | none => d
  | some s => if s = "" then d else s

/-- Model of datetime.now().isoformat()[:19] given the isoformat string of the
single datetime.now() call made at line 59. -/
def pyTimestamp (now : String) : String :=
  now.take 19

/-- One flush performed by queue_all_files: the part name passed to
queue_files, the chunk of (stripped) paths submitted, and the downloadId the
server returned for it. -/
structure Flush where
  partName : String
  files : List String
  downloadId : Int
deriving DecidableEq

/-- Loop of queue_all_files (lines 60-87) over the list of lines of the input
file, threading the part counter i and the files buffer.  Each line is
stripped and appended; when the buffer length reaches 10000 it is flushed via
queue_files, the counter is incremented and the buffer cleared; a final
non-empty buffer is flushed after the loop.  The server oracle gives the
response to the submission POST for part index i.  Returns the list of
flushes (or the first error) paired with the number of submission POSTs
actually issued. -/
def queueGo (server : Nat → QueueResponse) (base : String) :
    List String → Nat → List String → Except String (List Flush) × Nat
  | [], i, buf =>
    if buf.isEmpty then (Except.ok [], 0)
    else
      match queue_files (server i) with
      | Except.error e => (Except.error e, 1)
      | Except.ok d => (Except.ok [⟨mkPartName base i, buf, d⟩], 1)
  | l :: rest, i, buf =>
    let buf1 := buf ++ [pyStrip l]
    if 10000 ≤ buf1.length then
      match queue_files (server i) with
      | Except.error e => (Except.error e, 1)
      | Except.ok d =>
        let p := queueGo server base rest (i + 1) []
        (p.1.map (fun fs => ⟨mkPartName base i, buf1, d⟩ :: fs), p.2 + 1)
    else queueGo server base rest i buf1

/-- Embedding of queue_all_files (lines 34-89): computes the base file name
once (line 59), then runs the reading/flushing loop starting with part
counter 1 and an empty buffer.  The input-file contents are given as the list
of lines readline would produce. -/
def queue_all_files (server : Nat → QueueResponse) (fn : Option String)
    (now : String) (lines : List String) : Except String (List Flush) × Nat :=
  let base := pyOr fn (pyTimestamp now)
  queueGo server base lines 1 []

/-- The download_ids list returned by queue_all_files (lines 74 and 87): one
identifier appended per flush, in submission order. -/
def download_ids (fls : List Flush) : List Int :=
  fls.map Flush.downloadId

/-- Flushes of a successful run (and the empty list on an error result). -/
def flushesOf (p : Except String (List Flush) × Nat) : List Flush :=
  p.1.toOption.getD []

/-- Number of parts the loop submits for a given list of lines:
ceil(length / 10000). -/
def numParts (lines : List String) : Nat :=
  (lines.length + 9999) / 10000

/-- Pure chunk contents produced by the same loop: each line is stripped and
appended, a buffer of length 10000 becomes a chunk, a final non-empty buffer
becomes the last chunk. -/
def chunksGo : List String → List String → List (List String)
  | [], buf => if buf.isEmpty then [] else [buf]
  | l :: rest, buf =>
    let buf1 := buf ++ [pyStrip l]
    if 10000 ≤ buf1.length then buf1 :: chunksGo rest []
    else chunksGo rest buf1

/-- Flush records the loop builds for given chunk contents: part names are
consecutive from i, and the downloadId of part i comes from the server
response to submission i. -/
def mkFlushes (server : Nat → QueueResponse) (base : String) :
    Nat → List (List String) → List Flush
  | _, [] => []
  | i, c :: cs => ⟨mkPartName base i, c, (server i).downloadId⟩ :: mkFlushes server base (i + 1) cs

/-- Membership test of line 168: s in the set QUEUED, PAUSED, PREPARING,
RESTORING. -/
def nonTerminal (s : String) : Bool :=
  s = "QUEUED" || s = "PAUSED" || s = "PREPARING" || s = "RESTORING"

/-- Outcome of the monitor loop: normal completion (line 182), the raise
inside the loop guarded by the stale response check (lines 171-172), the
raise after a status GET (lines 163-164 and 176-177), or fuel exhaustion (an
artifact of the bounded model: the Python loop would still be running). -/
inductive MonitorOutcome where
  | completed : MonitorOutcome
  | erroredStale : String → MonitorOutcome
  | erroredPoll : String → MonitorOutcome
  | outOfFuel : MonitorOutcome
deriving DecidableEq

/-- Result of the monitor model: outcome plus the number of status GETs and
keep-alive PUTs issued. -/
structure MonitorResult where
  outcome : MonitorOutcome
  statusCalls : Nat
  keepAliveCalls : Nat
deriving DecidableEq

/-- True exactly on the outcome of the stale-response raise at lines
171-172. -/
def isStaleFailure : MonitorOutcome → Bool
  | MonitorOutcome.erroredStale _ => true
  | _ => false

/-- While-loop of monitor (lines 168-180), bounded by fuel.  The state is the
latest status response r (already checked and printed); k is the index of the
next status GET; sr is the status-response oracle; ka is the keep-alive
response oracle (the keep-alive status stream), which the code discards: at
line 170 the PUT result is not bound, and the check at line 171 re-reads the
stale variable response, i.e. r.  Call counts are those issued from this
point on. -/
def monitorGo (sr : Nat → StatusResponse) (ka : Nat → Nat) :
    Nat → Nat → StatusResponse → MonitorResult
  | 0, _, r =>
    if r.content.any nonTerminal then ⟨MonitorOutcome.outOfFuel, 0, 0⟩
    else ⟨MonitorOutcome.completed, 0, 0⟩
  | fuel + 1, k, r =>
    if r.content.any nonTerminal then
      -- keep-alive PUT issued here (line 170); its response (ka k) is dropped
      if r.status_code ≠ 200 then ⟨MonitorOutcome.erroredStale r.text, 0, 1⟩
      else
        let r2 := sr k
        if r2.status_code ≠ 200 then ⟨MonitorOutcome.erroredPoll r2.text, 1, 1⟩
        else
          let rest := monitorGo sr ka fuel (k + 1) r2
          ⟨rest.outcome, rest.statusCalls + 1, rest.keepAliveCalls + 1⟩
    else ⟨MonitorOutcome.completed, 0, 0⟩

/-- Embedding of monitor (lines 142-182): initial status GET and check
(lines 162-164), then the while loop.  fuel bounds the number of loop
iterations the model executes. -/
def monitor (sr : Nat → StatusResponse) (ka : Nat → Nat) (fuel : Nat) :
    MonitorResult :=
  let r0 := sr 0
  if r0.status_code ≠ 200 then ⟨MonitorOutcome.erroredPoll r0.text, 1, 0⟩
  else
    let rest := monitorGo sr ka fuel 1 r0
    ⟨rest.outcome, rest.statusCalls + 1, rest.keepAliveCalls⟩

/-- Outcome of one whole run of the script. -/
inductive RunOutcome where
  | finished : List Int → RunOutcome
  | failed : String → RunOutcome
  | fuelOut : RunOutcome
deriving DecidableEq

/-- Trace of one whole run: outcome plus the number of chunk-submission
POSTs, status GETs and keep-alive PUTs issued. -/
structure RunTrace where
  outcome : RunOutcome
  queueCalls : Nat
  statusCalls : Nat
  keepAliveCalls : Nat
deriving DecidableEq

/-- Embedding of the top-level control flow (lines 281-301): login, then
queue_all_files, then monitor, the latter only when the monitor interval is
strictly positive (line 295).  The interval, a Python float given on the
command line, is modelled as a rational. -/
def mainRun (lr : LoginResponse) (server : Nat → QueueResponse)
    (sr : Nat → StatusResponse) (ka : Nat → Nat) (fn : Option String)
    (now : String) (lines : List String) (interval : ℚ) (fuel : Nat) :
    RunTrace :=
  match login lr with
  | Except.error e => ⟨RunOutcome.failed e, 0, 0, 0⟩
  | Except.ok _sid =>
    match queue_all_files server fn now lines with
    | (Except.error e, q) => ⟨RunOutcome.failed e, q, 0, 0⟩
    | (Except.ok fls, q) =>
      if 0 < interval then
        let m := monitor sr ka fuel
        match m.outcome with
        | MonitorOutcome.completed =>
          ⟨RunOutcome.finished (download_ids fls), q, m.statusCalls, m.keepAliveCalls⟩
        | MonitorOutcome.erroredStale e =>
          ⟨RunOutcome.failed e, q, m.statusCalls, m.keepAliveCalls⟩
        | MonitorOutcome.erroredPoll e =>
          ⟨RunOutcome.failed e, q, m.statusCalls, m.keepAliveCalls⟩
        | MonitorOutcome.outOfFuel =>
          ⟨RunOutcome.fuelOut, q, m.statusCalls, m.keepAliveCalls⟩
      else ⟨RunOutcome.finished (download_ids fls), q, 0, 0⟩

/-! Concrete fixtures used by the witness theorems. -/

/-- Fixed all-200 server oracle used by the concrete witnesses. -/
def srvOK : Nat → QueueResponse :=
  fun i => ⟨200, "", Int.ofNat i + 40, []⟩

/-- Server oracle whose every submission response fails with a 500. -/
def srvBad : Nat → QueueResponse :=
  fun _ => ⟨500, "boom", 0, []⟩

/-- Successful login response. -/
def lrOK : LoginResponse :=
  ⟨200, "", "sess"⟩

/-- Keep-alive oracle answering 200 to every PUT. -/
def kaZero : Nat → Nat :=
  fun _ => 200

/-- Status oracle: first poll non-terminal, every later poll a 500. -/
def srBad : Nat → StatusResponse :=
  fun n => if n = 0 then ⟨200, "", ["QUEUED"]⟩ else ⟨500, "bad", []⟩

/-- Status oracle: first poll non-terminal, every later poll terminal. -/
def srSeq : Nat → StatusResponse :=
  fun n => if n = 0 then ⟨200, "", ["QUEUED"]⟩ else ⟨200, "", ["COMPLETE"]⟩

/-- Status oracle: every poll terminal. -/
def srTerm : Nat → StatusResponse :=
  fun _ => ⟨200, "", ["COMPLETE"]⟩

/-! Helper lemmas about the chunking loop. -/

/-- Concatenating the chunks gives the pending buffer followed by the
stripped lines, in order. -/
theorem chunksGo_join (lines : List String) :
    ∀ buf : List String, (chunksGo lines buf).flatten = buf ++ lines.map pyStrip := by
  induction lines with
  | nil =>
    intro buf
    by_cases h : buf.isEmpty
    · simp [chunksGo, h, List.isEmpty_iff.mp h]
    · simp [chunksGo, h]
  | cons l rest ih =>
    intro buf
    by_cases h : 10000 ≤ (buf ++ [pyStrip l]).length
    · simp only [chunksGo, h, if_pos]
      simp [ih, List.append_assoc]
    · simp only [chunksGo, h, if_neg, not_false_iff]
      simp [ih, List.append_assoc]

/-- Number of chunks: ceiling of (pending + remaining lines) over 10000,
provided the pending buffer is below the flush threshold. -/
theorem chunksGo_length (lines : List String) :
    ∀ buf : List String, buf.length < 10000 →
      (chunksGo lines buf).length = (buf.length + lines.length + 9999) / 10000 := by
  induction lines with
  | nil =>
    intro buf hb
    by_cases h : buf.isEmpty
    · have : buf = [] := List.isEmpty_iff.mp h
      simp [chunksGo, h, this]
    · have h1 : buf ≠ [] := fun hh => h (by simp [hh])
      have h2 : 1 ≤ buf.length := List.length_pos.mpr h1
      simp only [chunksGo, h, if_neg, Bool.not_eq_true]
      simp only [List.length_cons, List.length_nil]
      omega
  | cons l rest ih =>
    intro buf hb
    by_cases h : 10000 ≤ (buf ++ [pyStrip l]).length
    · have hlen : (buf ++ [pyStrip l]).length = buf.length + 1 := by simp
      simp only [chunksGo, h, if_pos, List.length_cons]
      rw [ih [] (by norm_num)]
      simp only [List.length_nil, List.length_cons]
      omega
    · have hlen : (buf ++ [pyStrip l]).length = buf.length + 1 := by simp
      simp only [chunksGo, h, if_neg, not_false_iff]
      rw [ih (buf ++ [pyStrip l]) (by omega)]
      simp only [hlen, List.length_cons]
      omega

/-- Every chunk before the last has length exactly 10000, and the last chunk
(if any) has length between 1 and 10000, provided the pending buffer is below
the flush threshold. -/
theorem chunksGo_sizes (lines : List String) :
    ∀ buf : List String, buf.length < 10000 →
      (∀ c ∈ (chunksGo lines buf).dropLast, c.length = 10000) ∧
      (∀ c ∈ (chunksGo lines buf).getLast?, 1 ≤ c.length ∧ c.length ≤ 10000) := by
  induction lines with
  | nil =>
    intro buf hb
    by_cases h : buf.isEmpty
    · simp [chunksGo, h]
    · have h1 : buf ≠ [] := fun hh => h (by simp [hh])
      have h2 : 1 ≤ buf.length := List.length_pos.mpr h1
      simp only [chunksGo, h, if_neg, Bool.not_eq_true]
      constructor
      · intro c hc
        simp [List.dropLast] at hc
      · intro c hc
        simp only [List.getLast?_singleton, Option.mem_def, Option.some.injEq] at hc
        subst hc
        exact ⟨h2, by omega⟩
  | cons l rest ih =>
    intro buf hb
    by_cases h : 10000 ≤ (buf ++ [pyStrip l]).length
    · have hlen : (buf ++ [pyStrip l]).length = buf.length + 1 := by simp
      have hfull : (buf ++ [pyStrip l]).length = 10000 := by omega
      simp only [chunksGo, h, if_pos]
      obtain ⟨ihDrop, ihLast⟩ := ih [] (by norm_num)
      cases hcs : chunksGo rest [] with
      | nil =>
        constructor
        · intro c hc
          simp [List.dropLast] at hc
        · intro c hc
          simp only [List.getLast?_singleton, Option.mem_def, Option.some.injEq] at hc
          subst hc
          omega
      | cons c0 cs =>
        constructor
        · intro c hc
          rw [List.dropLast_cons₂] at hc
          rcases List.mem_cons.mp hc with h1 | h1
          · subst h1; exact hfull
          · exact ihDrop c (by rw [hcs]; exact h1)
        · intro c hc
          rw [List.getLast?_cons_cons] at hc
          exact ihLast c (by rw [hcs]; exact hc)
    · simp only [chunksGo, h, if_neg, not_false_iff]
      exact ih (buf ++ [pyStrip l]) (by simp at h ⊢; omega)

/-! Helper lemmas about mkFlushes. -/

theorem mkFlushes_length (server : Nat → QueueResponse) (base : String) :
    ∀ (cs : List (List String)) (i : Nat), (mkFlushes server base i cs).length = cs.length := by
  intro cs
  induction cs with
  | nil => intro i; simp [mkFlushes]
  | cons c cs ih => intro i; simp [mkFlushes, ih]

theorem mkFlushes_map_files (server : Nat → QueueResponse) (base : String) :
    ∀ (cs : List (List String)) (i : Nat),
      (mkFlushes server base i cs).map Flush.files = cs := by
  intro cs
  induction cs with
  | nil => intro i; simp [mkFlushes]
  | cons c cs ih => intro i; simp [mkFlushes, ih]

theorem mkFlushes_get (server : Nat → QueueResponse) (base : String) :
    ∀ (cs : List (List String)) (i k : Nat) (h : k < (mkFlushes server base i cs).length)
      (h2 : k < cs.length),
      (mkFlushes server base i cs).get ⟨k, h⟩ =
        ⟨mkPartName base (i + k), cs.get ⟨k, h2⟩, (server (i + k)).downloadId⟩ := by
  intro cs
  induction cs with
  | nil => intro i k h h2; simp at h2
  | cons c cs ih =>
    intro i k h h2
    cases k with
    | zero => simp [mkFlushes]
    | succ k =>
      have h3 : k < (mkFlushes server base (i + 1) cs).length := by
        simpa [mkFlushes] using h
      have h4 : k < cs.length := by simpa using h2
      simp only [mkFlushes, List.get_cons_succ]
      rw [ih (i + 1) k h3 h4]
      have : i + 1 + k = i + (k + 1) := by omega
      rw [this]

theorem mkFlushes_mem (server : Nat → QueueResponse) (base : String) :
    ∀ (cs : List (List String)) (i : Nat), ∀ fl ∈ mkFlushes server base i cs,
      ∃ k, i ≤ k ∧ fl.partName = mkPartName base k := by
  intro cs
  induction cs with
  | nil => intro i fl hfl; simp [mkFlushes] at hfl
  | cons c cs ih =>
    intro i fl hfl
    rcases List.mem_cons.mp hfl with h1 | h1
    · exact ⟨i, le_refl i, by rw [h1]⟩
    · obtain ⟨k, hk1, hk2⟩ := ih (i + 1) fl h1
      exact ⟨k, by omega, hk2⟩

/-- When every submission response has status 200, the loop flushes exactly
the pure chunks, numbered consecutively, with the downloadIds the server
returned, issuing one submission POST per chunk. -/
theorem queueGo_ok (server : Nat → QueueResponse) (base : String)
    (hs : ∀ i, (server i).status_code = 200) (lines : List String) :
    ∀ (i : Nat) (buf : List String),
      queueGo server base lines i buf =
        (Except.ok (mkFlushes server base i (chunksGo lines buf)),
          (chunksGo lines buf).length) := by
  induction lines with
  | nil =>
    intro i buf
    by_cases h : buf.isEmpty
    · simp [queueGo, chunksGo, h, mkFlushes]
    · simp [queueGo, chunksGo, h, queue_files, hs i, mkFlushes]
  | cons l rest ih =>
    intro i buf
    by_cases h : 10000 ≤ (buf ++ [pyStrip l]).length
    · simp only [queueGo, chunksGo, h, if_pos]
      simp [queue_files, hs i, ih, mkFlushes, Except.map]
    · simp only [queueGo, chunksGo, h, if_neg, not_false_iff]
      exact ih i (buf ++ [pyStrip l])

/-- The downloadIds recorded by mkFlushes are the server responses to
submissions i, i+1, ..., in order. -/
theorem mkFlushes_ids (server : Nat → QueueResponse) (base : String) :
    ∀ (cs : List (List String)) (i : Nat),
      (mkFlushes server base i cs).map Flush.downloadId =
        (List.range cs.length).map (fun k => (server (i + k)).downloadId) := by
  intro cs
  induction cs with
  | nil => intro i; simp [mkFlushes]
  | cons c cs ih =>
    intro i
    simp only [mkFlushes, List.map_cons, List.length_cons, List.range_succ_eq_map,
      List.map_map]
    rw [ih (i + 1)]
    congr 1
    apply List.map_congr_left
    intro a _
    simp only [Function.comp_apply]
    have h5 : i + 1 + a = i + (a + 1) := by omega
    rw [h5]

/-- On an all-200 server, queue_all_files succeeds and its flushes are the
consecutively numbered pure chunks with server-assigned ids, one submission
POST per chunk. -/
theorem queue_all_files_ok (server : Nat → QueueResponse) (fn : Option String)
    (now : String) (lines : List String)
    (hs : ∀ i, (server i).status_code = 200) :
    queue_all_files server fn now lines =
      (Except.ok (mkFlushes server (pyOr fn (pyTimestamp now)) 1 (chunksGo lines [])),
        (chunksGo lines []).length) := by
  simp only [queue_all_files]
  exact queueGo_ok server (pyOr fn (pyTimestamp now)) hs lines 1 []

theorem flushesOf_ok (server : Nat → QueueResponse) (fn : Option String)
    (now : String) (lines : List String)
    (hs : ∀ i, (server i).status_code = 200) :
    flushesOf (queue_all_files server fn now lines) =
      mkFlushes server (pyOr fn (pyTimestamp now)) 1 (chunksGo lines []) := by
  rw [queue_all_files_ok server fn now lines hs]
  rfl

/-- C1: for every input list of file paths of length L (the stripped lines of
the input file), queue_all_files submits exactly ceil(L/10000) chunks (0 when
L = 0), every chunk has size exactly 10000 except possibly the last, which
has size in [1, 10000], and concatenating the submitted chunks in submission
order reconstructs the input list exactly, in order, with no duplication. -/
theorem spec_C1 (server : Nat → QueueResponse) (fn : Option String)
    (now : String) (lines : List String)
    (hs : ∀ i, (server i).status_code = 200) :
    (queue_all_files server fn now lines).1 =
      Except.ok (flushesOf (queue_all_files server fn now lines)) ∧
    (flushesOf (queue_all_files server fn now lines)).length =
      (lines.length + 9999) / 10000 ∧
    (lines = [] → flushesOf (queue_all_files server fn now lines) = []) ∧
    (∀ c ∈ ((flushesOf (queue_all_files server fn now lines)).map Flush.files).dropLast,
      c.length = 10000) ∧
    (∀ c ∈ ((flushesOf (queue_all_files server fn now lines)).map Flush.files).getLast?,
      1 ≤ c.length ∧ c.length ≤ 10000) ∧
    ((flushesOf (queue_all_files server fn now lines)).map Flush.files).flatten =
      lines.map pyStrip := by
  have hf := flushesOf_ok server fn now lines hs
  refine ⟨?_, ?_, ?_, ?_, ?_, ?_⟩
  · rw [hf, queue_all_files_ok server fn now lines hs]
  · rw [hf, mkFlushes_length, chunksGo_length lines [] (by norm_num)]
    simp
  · intro h
    subst h
    rw [hf]
    rfl
  · rw [hf, mkFlushes_map_files]
    exact (chunksGo_sizes lines [] (by norm_num)).1
  · rw [hf, mkFlushes_map_files]
    exact (chunksGo_sizes lines [] (by norm_num)).2
  · rw [hf, mkFlushes_map_files]
    simpa using chunksGo_join lines []

theorem spec_C1_witness :
    (∀ i, (srvOK i).status_code = 200) ∧
    ((flushesOf (queue_all_files srvOK (some "run") "t" ["a", "b"])).map
        Flush.files).flatten = List.map pyStrip ["a", "b"] :=
  ⟨fun _ => rfl,
    (spec_C1 srvOK (some "run") "t" ["a", "b"] (fun _ => rfl)).2.2.2.2.2⟩

/-- C2: on a successful run the k-th flush (0-based) is labelled
base_part_(k+1), so part numbers start at 1 and increase by 1 per flush with
no gaps, and the returned download_ids list holds one server-assigned
identifier per flush, in submission order. -/
theorem spec_C2 (server : Nat → QueueResponse) (fn : Option String)
    (now : String) (lines : List String)
    (hs : ∀ i, (server i).status_code = 200) :
    (∀ k (h : k < (flushesOf (queue_all_files server fn now lines)).length),
      ((flushesOf (queue_all_files server fn now lines)).get ⟨k, h⟩).partName =
        mkPartName (pyOr fn (pyTimestamp now)) (k + 1)) ∧
    download_ids (flushesOf (queue_all_files server fn now lines)) =
      (List.range (flushesOf (queue_all_files server fn now lines)).length).map
        (fun k => (server (k + 1)).downloadId) := by
  have hf := flushesOf_ok server fn now lines hs
  constructor
  · intro k h
    have h2 : k < (chunksGo lines []).length := by
      rw [hf, mkFlushes_length] at h
      exact h
    have h3 : k < (mkFlushes server (pyOr fn (pyTimestamp now)) 1 (chunksGo lines [])).length := by
      rw [← hf]
      exact h
    have hg : (flushesOf (queue_all_files server fn now lines)).get ⟨k, h⟩ =
        (mkFlushes server (pyOr fn (pyTimestamp now)) 1 (chunksGo lines [])).get ⟨k, h3⟩ := by
      rw [List.get_of_eq hf]
    rw [hg, mkFlushes_get server (pyOr fn (pyTimestamp now)) (chunksGo lines []) 1 k h3 h2]
    have : 1 + k = k + 1 := by omega
    rw [this]
  · rw [hf, download_ids, mkFlushes_ids, mkFlushes_length]
    apply List.map_congr_left
    intro k _
    have : 1 + k = k + 1 := by omega
    rw [this]

theorem spec_C2_witness :
    (∀ i, (srvOK i).status_code = 200) ∧
    download_ids (flushesOf (queue_all_files srvOK (some "run") "t" ["a", "b"])) =
      (List.range (flushesOf (queue_all_files srvOK (some "run") "t" ["a", "b"])).length).map
        (fun k => (srvOK (k + 1)).downloadId) :=
  ⟨fun _ => rfl, (spec_C2 srvOK (some "run") "t" ["a", "b"] (fun _ => rfl)).2⟩

/-- C6: for an empty input list queue_all_files is a no-op: it returns with
no error, an empty flush list (hence an empty job-identifier list), and
issues zero chunk-submission HTTP calls. -/
theorem spec_C6 :
    ∀ (server : Nat → QueueResponse) (fn : Option String) (now : String),
      queue_all_files server fn now [] = (Except.ok [], 0) ∧
      download_ids [] = [] :=
  fun _ _ _ => ⟨rfl, rfl⟩

/-- C7: the base name is the given string when set and non-empty, and the
timestamp-derived string otherwise; it is computed once per invocation
(line 59), and every part name of the invocation is that one base followed by
_part_ and a part number. -/
theorem spec_C7 (server : Nat → QueueResponse) (fn : Option String)
    (now : String) (lines : List String)
    (hs : ∀ i, (server i).status_code = 200) :
    ((fn = none ∨ fn = some "") → pyOr fn (pyTimestamp now) = pyTimestamp now) ∧
    (∀ s, fn = some s → s ≠ "" → pyOr fn (pyTimestamp now) = s) ∧
    (∀ fl ∈ flushesOf (queue_all_files server fn now lines),
      ∃ k, 1 ≤ k ∧ fl.partName = mkPartName (pyOr fn (pyTimestamp now)) k) := by
  refine ⟨?_, ?_, ?_⟩
  · rintro (h | h) <;> subst h <;> simp [pyOr]
  · intro s h hne
    subst h
    simp [pyOr, hne]
  · rw [flushesOf_ok server fn now lines hs]
    exact mkFlushes_mem server (pyOr fn (pyTimestamp now)) (chunksGo lines []) 1

theorem spec_C7_witness :
    (∀ i, (srvOK i).status_code = 200) ∧
    ((none = (none : Option String) ∨ none = some "") →
      pyOr none (pyTimestamp "2024-01-02T03:04:05.678901") =
        pyTimestamp "2024-01-02T03:04:05.678901") :=
  ⟨fun _ => rfl,
    (spec_C7 srvOK none "2024-01-02T03:04:05.678901" ["a"] (fun _ => rfl)).1⟩

/-- C9: every line is stripped before being appended (the chunks concatenate
to the stripped lines, one entry per input line, blank lines included), the
chunk count is driven by the raw line count so a blank line counts toward the
10000 limit, and stripping a blank line yields the empty-string path. -/
theorem spec_C9 (server : Nat → QueueResponse) (fn : Option String)
    (now : String) (lines : List String)
    (hs : ∀ i, (server i).status_code = 200) :
    ((flushesOf (queue_all_files server fn now lines)).map Flush.files).flatten =
      lines.map pyStrip ∧
    (flushesOf (queue_all_files server fn now lines)).length =
      (lines.length + 9999) / 10000 ∧
    pyStrip "\n" = "" ∧
    pyStrip " \t \n" = "" := by
  have hf := flushesOf_ok server fn now lines hs
  refine ⟨?_, ?_, by decide, by decide⟩
  · rw [hf, mkFlushes_map_files]
    simpa using chunksGo_join lines []
  · rw [hf, mkFlushes_length, chunksGo_length lines [] (by norm_num)]
    simp

theorem spec_C9_witness :
    (∀ i, (srvOK i).status_code = 200) ∧
    ((flushesOf (queue_all_files srvOK (some "run") "t" ["x\n", "\n"])).map
        Flush.files).flatten = List.map pyStrip ["x\n", "\n"] :=
  ⟨fun _ => rfl, (spec_C9 srvOK (some "run") "t" ["x\n", "\n"] (fun _ => rfl)).1⟩

/-- If submissions i, ..., j-1 succeed and submission j fails, the loop stops
at the j-th submission: it returns the raw body of the failing response as
the error and has issued exactly j - i + 1 submission POSTs, none after the
failing one. -/
theorem queueGo_err (server : Nat → QueueResponse) (base : String)
    (lines : List String) :
    ∀ (i : Nat) (buf : List String) (j : Nat), buf.length < 10000 →
      i ≤ j → j < i + (buf.length + lines.length + 9999) / 10000 →
      (∀ m, i ≤ m → m < j → (server m).status_code = 200) →
      (server j).status_code ≠ 200 →
      queueGo server base lines i buf = (Except.error (server j).text, j + 1 - i) := by
  induction lines with
  | nil =>
    intro i buf j hb hij hlt h200 hbad
    have hji : j = i := by
      simp only [List.length_nil] at hlt
      omega
    subst hji
    have hbuf : 1 ≤ buf.length := by
      simp only [List.length_nil] at hlt
      omega
    have hne : ¬ buf.isEmpty := by
      cases buf with
      | nil => simp at hbuf
      | cons a as => simp
    simp [queueGo, hne, queue_files, hbad]
  | cons l rest ih =>
    intro i buf j hb hij hlt h200 hbad
    by_cases h : 10000 ≤ (buf ++ [pyStrip l]).length
    · by_cases hji : j = i
      · subst hji
        simp only [queueGo]
        rw [if_pos h]
        simp [queue_files, hbad]
      · have h200i : (server i).status_code = 200 := h200 i (le_refl i) (by omega)
        have hrec := ih (i + 1) [] j (by norm_num) (by omega)
          (by
            simp only [List.length_nil, List.length_cons] at hlt ⊢
            simp only [List.length_append, List.length_cons, List.length_nil] at h
            omega)
          (fun m hm1 hm2 => h200 m (by omega) hm2) hbad
        simp only [queueGo, h, if_pos, queue_files, h200i]
        simp only [ne_eq, not_true_eq_false, if_neg, not_false_iff, ite_false]
        rw [hrec]
        simp only [Except.map]
        have harith : j + 1 - (i + 1) + 1 = j + 1 - i := by omega
        rw [harith]
    · simp only [queueGo, h, if_neg, not_false_iff]
      exact ih i (buf ++ [pyStrip l]) j
        (by simp only [List.length_append, List.length_cons, List.length_nil] at h ⊢; omega)
        hij
        (by simp only [List.length_append, List.length_cons, List.length_nil] at hlt ⊢; omega)
        h200 hbad

/-- If the first m status responses are 200 and non-terminal and the m-th
fails, the polling loop (entered at poll index k with the previous response
in hand) stops after exactly d further polls and d further keep-alives,
carrying the failing response body. -/
theorem monitorGo_pollErr (sr : Nat → StatusResponse) (ka : Nat → Nat) (m : Nat)
    (h200 : ∀ n, n < m → (sr n).status_code = 200)
    (hany : ∀ n, n < m → (sr n).content.any nonTerminal = true)
    (hbad : (sr m).status_code ≠ 200) :
    ∀ (d k fuel : Nat), 1 ≤ d → k + d = m + 1 → 1 ≤ k → d ≤ fuel →
      monitorGo sr ka fuel k (sr (k - 1)) =
        ⟨MonitorOutcome.erroredPoll (sr m).text, d, d⟩ := by
  intro d
  induction d with
  | zero =>
    intro k fuel h1 h2 h3 h4
    exact absurd h1 (by omega)
  | succ d ih =>
    intro k fuel h1 h2 h3 h4
    obtain ⟨f, rfl⟩ : ∃ f, fuel = f + 1 := ⟨fuel - 1, by omega⟩
    have hkm : k - 1 < m := by omega
    have hanyk : (sr (k - 1)).content.any nonTerminal = true := hany (k - 1) hkm
    have h200k : (sr (k - 1)).status_code = 200 := h200 (k - 1) hkm
    by_cases hdm : d = 0
    · subst hdm
      have hkm2 : k = m := by omega
      subst hkm2
      simp [monitorGo, hanyk, h200k, hbad]
    · have h200k2 : (sr k).status_code = 200 := h200 k (by omega)
      have hrec := ih (k + 1) f (by omega) (by omega) (by omega) (by omega)
      simp only [Nat.add_sub_cancel] at hrec
      simp [monitorGo, hanyk, h200k, h200k2, hrec]

/-- If the first N status responses are non-terminal, all responses up to N
are 200, and the N-th is terminal, the polling loop (entered at poll index k
with the previous response in hand) completes after exactly d further polls
and d further keep-alives. -/
theorem monitorGo_completes (sr : Nat → StatusResponse) (ka : Nat → Nat) (N : Nat)
    (h200 : ∀ n, n ≤ N → (sr n).status_code = 200)
    (hterm : (sr N).content.any nonTerminal = false)
    (hpre : ∀ n, n < N → (sr n).content.any nonTerminal = true) :
    ∀ (d k fuel : Nat), k + d = N + 1 → 1 ≤ k → d ≤ fuel →
      monitorGo sr ka fuel k (sr (k - 1)) =
        ⟨MonitorOutcome.completed, d, d⟩ := by
  intro d
  induction d with
  | zero =>
    intro k fuel h2 h3 h4
    have hk : k - 1 = N := by omega
    cases fuel with
    | zero => simp [monitorGo, hk, hterm]
    | succ f => simp [monitorGo, hk, hterm]
  | succ d ih =>
    intro k fuel h2 h3 h4
    obtain ⟨f, rfl⟩ : ∃ f, fuel = f + 1 := ⟨fuel - 1, by omega⟩
    have hkm : k - 1 < N := by omega
    have hanyk : (sr (k - 1)).content.any nonTerminal = true := hpre (k - 1) hkm
    have h200k : (sr (k - 1)).status_code = 200 := h200 (k - 1) (by omega)
    have h200k2 : (sr k).status_code = 200 := h200 k (by omega)
    have hrec := ih (k + 1) f (by omega) (by omega) (by omega)
    simp only [Nat.add_sub_cancel] at hrec
    simp [monitorGo, hanyk, h200k, h200k2, hrec]

/-- From any state whose held response has status 200, the loop never takes
the stale-check raise. -/
theorem monitorGo_noStale (sr : Nat → StatusResponse) (ka : Nat → Nat) :
    ∀ (fuel k : Nat) (r : StatusResponse), r.status_code = 200 →
      isStaleFailure (monitorGo sr ka fuel k r).outcome = false := by
  intro fuel
  induction fuel with
  | zero =>
    intro k r h
    by_cases hany : r.content.any nonTerminal = true
    · simp [monitorGo, hany, isStaleFailure]
    · simp only [Bool.not_eq_true] at hany
      simp [monitorGo, hany, isStaleFailure]
  | succ f ih =>
    intro k r h
    by_cases hany : r.content.any nonTerminal = true
    · by_cases hpoll : (sr k).status_code = 200
      · simp [monitorGo, hany, h, hpoll, ih (k + 1) (sr k) hpoll]
      · simp [monitorGo, hany, h, hpoll, isStaleFailure]
    · simp only [Bool.not_eq_true] at hany
      simp [monitorGo, hany, isStaleFailure]

/-- C3: a non-200 response aborts the run at once with the raw response body
as the error message and no further HTTP calls: (i) at login, (ii) at a chunk
submission, where the error propagates out of queue_all_files with exactly j
submission POSTs issued when the j-th is the first to fail, and (iii) at a
status check, where monitor stops with exactly m+1 status GETs and m
keep-alive PUTs when the m-th status GET (0-based) is the first to fail. -/
theorem spec_C3 :
    (∀ r : LoginResponse, r.status_code ≠ 200 → login r = Except.error r.text) ∧
    (∀ r : QueueResponse, r.status_code ≠ 200 → queue_files r = Except.error r.text) ∧
    (∀ (server : Nat → QueueResponse) (fn : Option String) (now : String)
        (lines : List String) (j : Nat),
      1 ≤ j → j ≤ numParts lines →
      (∀ m, 1 ≤ m → m < j → (server m).status_code = 200) →
      (server j).status_code ≠ 200 →
      queue_all_files server fn now lines = (Except.error (server j).text, j)) ∧
    (∀ (sr : Nat → StatusResponse) (ka : Nat → Nat) (fuel m : Nat),
      m ≤ fuel →
      (∀ n, n < m → (sr n).status_code = 200 ∧ (sr n).content.any nonTerminal = true) →
      (sr m).status_code ≠ 200 →
      monitor sr ka fuel = ⟨MonitorOutcome.erroredPoll (sr m).text, m + 1, m⟩) := by
  refine ⟨?_, ?_, ?_, ?_⟩
  · intro r h
    simp [login, h]
  · intro r h
    simp [queue_files, h]
  · intro server fn now lines j hj1 hj2 h200 hbad
    simp only [queue_all_files]
    have := queueGo_err server (pyOr fn (pyTimestamp now)) lines 1 [] j
      (by norm_num) hj1
      (by simp only [List.length_nil]; simp only [numParts] at hj2; omega)
      (fun m hm1 hm2 => h200 m hm1 hm2) hbad
    rw [this]
    simp
  · intro sr ka fuel m hfuel hpre hbad
    cases m with
    | zero =>
      simp [monitor, hbad]
    | succ m =>
      have h0 : (sr 0).status_code = 200 := (hpre 0 (by omega)).1
      have hgo := monitorGo_pollErr sr ka (m + 1)
        (fun n hn => (hpre n hn).1) (fun n hn => (hpre n hn).2) hbad
        (m + 1) 1 fuel (by omega) (by omega) (by omega) (by omega)
      simp only [Nat.sub_self] at hgo
      simp [monitor, h0, hgo]

theorem spec_C3_witness :
    login ⟨500, "denied", ""⟩ = Except.error "denied" ∧
    queue_files ⟨500, "oops", 0, []⟩ = Except.error "oops" ∧
    queue_all_files srvBad none "2024-01-02T03:04:05" ["a"] =
      (Except.error (srvBad 1).text, 1) ∧
    monitor srBad kaZero 3 = ⟨MonitorOutcome.erroredPoll (srBad 1).text, 2, 1⟩ :=
  ⟨spec_C3.1 ⟨500, "denied", ""⟩ (by decide),
    spec_C3.2.1 ⟨500, "oops", 0, []⟩ (by decide),
    spec_C3.2.2.1 srvBad none "2024-01-02T03:04:05" ["a"] 1 (by decide) (by decide)
      (fun m h1 h2 => absurd h2 (by omega)) (by decide),
    spec_C3.2.2.2 srBad kaZero 3 1 (by decide)
      (fun n hn => by
        have hn0 : n = 0 := by omega
        subst hn0
        exact ⟨rfl, by decide⟩)
      (by decide)⟩

/-- C4: the polling loop keeps polling while some job reports a status in
{QUEUED, PAUSED, PREPARING, RESTORING} and stops as soon as none does: if the
first N polls each report some non-terminal status and poll N is the first
whose statuses are all terminal, monitor completes after exactly N+1 status
GETs and N keep-alive PUTs. -/
theorem spec_C4 (sr : Nat → StatusResponse) (ka : Nat → Nat) (N fuel : Nat)
    (h200 : ∀ n, n ≤ N → (sr n).status_code = 200)
    (hterm : (sr N).content.any nonTerminal = false)
    (hpre : ∀ n, n < N → (sr n).content.any nonTerminal = true)
    (hfuel : N ≤ fuel) :
    monitor sr ka fuel = ⟨MonitorOutcome.completed, N + 1, N⟩ := by
  have h0 : (sr 0).status_code = 200 := h200 0 (by omega)
  have hgo := monitorGo_completes sr ka N h200 hterm hpre N 1 fuel
    (by omega) (by omega) hfuel
  simp only [Nat.sub_self] at hgo
  simp [monitor, h0, hgo]

theorem spec_C4_witness :
    monitor srSeq kaZero 2 = ⟨MonitorOutcome.completed, 2, 1⟩ :=
  spec_C4 srSeq kaZero 1 2
    (fun n _ => by
      by_cases hn : n = 0 <;> simp [srSeq, hn])
    (by decide)
    (fun n hn => by
      have hn0 : n = 0 := by omega
      subst hn0
      decide)
    (by omega)

/-- The polling loop never reads the keep-alive response oracle. -/
theorem monitorGo_ka_irrel (sr : Nat → StatusResponse) (ka ka2 : Nat → Nat) :
    ∀ (fuel k : Nat) (r : StatusResponse),
      monitorGo sr ka fuel k r = monitorGo sr ka2 fuel k r := by
  intro fuel
  induction fuel with
  | zero => intro k r; rfl
  | succ f ih =>
    intro k r
    simp only [monitorGo]
    rw [ih (k + 1) (sr k)]

/-- C5: the result of monitor does not depend on the keep-alive responses at
all, and the check performed right after the keep-alive PUT inspects the
previous status-query response: when that stale response is non-terminal and
non-200 the loop raises with the stale response's body, regardless of what
the keep-alive call returned. -/
theorem spec_C5 :
    (∀ (sr : Nat → StatusResponse) (ka ka2 : Nat → Nat) (fuel : Nat),
      monitor sr ka fuel = monitor sr ka2 fuel) ∧
    (∀ (sr : Nat → StatusResponse) (ka : Nat → Nat) (fuel k : Nat)
        (r : StatusResponse),
      r.content.any nonTerminal = true → r.status_code ≠ 200 →
      monitorGo sr ka (fuel + 1) k r =
        ⟨MonitorOutcome.erroredStale r.text, 0, 1⟩) := by
  constructor
  · intro sr ka ka2 fuel
    simp only [monitor]
    rw [monitorGo_ka_irrel sr ka ka2 fuel 1 (sr 0)]
  · intro sr ka fuel k r hany hbad
    simp [monitorGo, hany, hbad]

theorem spec_C5_witness :
    monitor srBad kaZero 2 = monitor srBad (fun _ => 500) 2 ∧
    monitorGo srBad kaZero 1 5 ⟨500, "boom", ["QUEUED"]⟩ =
      ⟨MonitorOutcome.erroredStale "boom", 0, 1⟩ :=
  ⟨spec_C5.1 srBad kaZero (fun _ => 500) 2,
    spec_C5.2 srBad kaZero 0 5 ⟨500, "boom", ["QUEUED"]⟩ (by decide) (by decide)⟩

/-- C8: a monitor interval of zero or less disables polling entirely: the
top-level control flow only calls monitor when the interval is strictly
positive, so with a non-positive interval the run issues no status GETs and
no keep-alive PUTs. -/
theorem spec_C8 (lr : LoginResponse) (server : Nat → QueueResponse)
    (sr : Nat → StatusResponse) (ka : Nat → Nat) (fn : Option String)
    (now : String) (lines : List String) (interval : ℚ) (fuel : Nat)
    (h : interval ≤ 0) :
    (mainRun lr server sr ka fn now lines interval fuel).statusCalls = 0 ∧
    (mainRun lr server sr ka fn now lines interval fuel).keepAliveCalls = 0 := by
  have hneg : ¬ (0 < interval) := not_lt.mpr h
  simp only [mainRun]
  rcases login lr with e | s
  · exact ⟨rfl, rfl⟩
  · rcases hq : queue_all_files server fn now lines with ⟨res, q⟩
    rcases res with e | fls
    · exact ⟨rfl, rfl⟩
    · simp [hneg]

theorem spec_C8_witness :
    (mainRun lrOK srvOK srTerm kaZero none "2024-01-02T03:04:05" ["a"] 0 3).statusCalls = 0 ∧
    (mainRun lrOK srvOK srTerm kaZero none "2024-01-02T03:04:05" ["a"] 0 3).keepAliveCalls = 0 :=
  spec_C8 lrOK srvOK srTerm kaZero none "2024-01-02T03:04:05" ["a"] 0 3 (le_refl 0)

/-- C10: the raise guarded by the stale status check inside the loop is
unreachable: whenever monitor is run, the response that check inspects is the
most recent status-query response, which was already verified to be 200, so
no run of monitor ever ends in the stale-check raise, whatever the status and
keep-alive oracles return. -/
theorem spec_C10 :
    ∀ (sr : Nat → StatusResponse) (ka : Nat → Nat) (fuel : Nat),
      isStaleFailure (monitor sr ka fuel).outcome = false := by
  intro sr ka fuel
  by_cases h0 : (sr 0).status_code = 200
  · simp [monitor, h0, monitorGo_noStale sr ka fuel 1 (sr 0) h0]
  · simp [monitor, h0, isStaleFailure]

end QueueDownloads
